import Mathlib

/-!
# Verification of the three-body-problem physics core

Shallow embedding of the repository's physics engine (`bodies.js` together
with the `Position`/`MotionVector` classes and the step driver) and proofs
of the specified properties.

Modelling conventions:
* JavaScript numbers are modelled as real numbers (`ℝ`); machine
  floating-point rounding is outside the scope of the embedding.
* In-place mutation is modelled by explicit state passing: a method that
  mutates its receiver becomes a function returning the updated value.
* A method that can `throw` returns its updated state paired with
  `Except String _`; the thrown `Error` message string is kept verbatim.
  Since every check in the source precedes every mutation, the state
  component is the unchanged receiver in the error case.
* `Math.random()` inside the `Body` constructor (`setRandomColor`) is
  modelled by an oracle parameter `rnd : ℕ` supplied by the caller.
* The `async` keywords in the source are cosmetic (nothing ever awaits an
  external event); they are erased into plain sequencing.
-/

/-- `Position` from the vector classes: a point in the x/y plane. -/
structure Position where
  x : ℝ
  y : ℝ

/-- `MotionVector` from the vector classes: a momentum vector. -/
structure MotionVector where
  x : ℝ
  y : ℝ

/-- `Position.prototype.addVector`: `this.x += vector.x; this.y += vector.y`. -/
def Position.addVector (p : Position) (vector : MotionVector) : Position :=
  ⟨p.x + vector.x, p.y + vector.y⟩

/-- `Position.prototype.difference`: `a.difference(b)` returns `b - a`,
the vector pointing from `a` toward `b`. -/
def Position.difference (p : Position) (position : Position) : Position :=
  ⟨position.x - p.x, position.y - p.y⟩

/-- `Position.prototype.exportCoordinates`: the `[x, y]` pair recorded in trails. -/
def Position.exportCoordinates (p : Position) : ℝ × ℝ :=
  (p.x, p.y)

/-- `MotionVector.prototype.addCoords`: componentwise addition of the passed pair. -/
def MotionVector.addCoords (m : MotionVector) (x y : ℝ) : MotionVector :=
  ⟨m.x + x, m.y + y⟩

noncomputable section

/-- `Position.prototype.distance`: Euclidean norm of `this.difference(position)`. -/
def Position.distance (p : Position) (position : Position) : ℝ :=
  let d := p.difference position
  Real.sqrt (d.x * d.x + d.y * d.y)

end

/-- The `Body` class: a point mass with position, momentum, bounded trail
history and two cosmetic attributes. -/
structure Body where
  mass : ℝ
  position : Position
  momentum : MotionVector
  trailLength : ℕ
  trail : List (ℝ × ℝ)
  colorIndex : ℕ
  trailThickness : ℝ

instance : Inhabited Body :=
  ⟨{ mass := 0, position := ⟨0, 0⟩, momentum := ⟨0, 0⟩,
     trailLength := 0, trail := [], colorIndex := 0, trailThickness := 2 }⟩

namespace Body

/-- `Body.colorOptions`: the static list of fifteen CSS colors. -/
def colorOptions : List String :=
  ["#ffffff", "#f44336", "#E91E63", "#9C27B0", "#673AB7",
   "#3F51B5", "#2196F3", "#00BCD4", "#009688", "#4CAF50",
   "#CDDC39", "#FFEB3B", "#FFC107", "#FF9800", "#FF5722"]

/-- The `Body` constructor: mass/position/momentum from the caller, empty
trail of capacity 0, trail thickness 2, and `setRandomColor()` drawing a
color index below `colorOptions.length` (the random draw is the oracle
`rnd`). -/
def new (rnd : ℕ) (mass : ℝ) (position : Position) (momentum : MotionVector) : Body :=
  { mass := mass, position := position, momentum := momentum,
    trailLength := 0, trail := [],
    colorIndex := rnd % colorOptions.length, trailThickness := 2 }

/-- Getter `body.x`. -/
def x (b : Body) : ℝ := b.position.x

/-- Getter `body.y`. -/
def y (b : Body) : ℝ := b.position.y

/-- Getter `body.radius`: `this.mass * 10`. -/
def radius (b : Body) : ℝ := b.mass * 10

/-- `Body.prototype.setTrailLength`: throws `"Invalid trail length"` when
`n < 0 || n > 100000`, otherwise assigns `this.trailLength = n`. -/
def setTrailLength (b : Body) (n : ℤ) : Body × Except String Unit :=
  if n < 0 ∨ 100000 < n then (b, .error "Invalid trail length")
  else ({ b with trailLength := n.toNat }, .ok ())

/-- `Body.prototype.setColor`: throws `"Invalid color index"` when
`i < 0 || i >= colorOptions.length`, otherwise assigns and returns `i`. -/
def setColor (b : Body) (i : ℤ) : Body × Except String ℤ :=
  if i < 0 ∨ (colorOptions.length : ℤ) ≤ i then (b, .error "Invalid color index")
  else ({ b with colorIndex := i.toNat }, .ok i)

/-- `Body.prototype.setTrailThickness`: throws `"Invalid trail thickness"`
when `pixels <= 0 || pixels > this.radius`, otherwise assigns it. -/
noncomputable def setTrailThickness (b : Body) (pixels : ℝ) : Body × Except String ℝ :=
  if pixels ≤ 0 ∨ b.radius < pixels then (b, .error "Invalid trail thickness")
  else ({ b with trailThickness := pixels }, .ok pixels)

/-- `Body.prototype.adjustPosition`: push the pre-advance coordinates when
`this.trailLength != 0 && this.trailLength >= this.trail.length`; then
`splice(0, this.trail.length - this.trailLength)` when the trail exceeds
the capacity; finally `this.position.addVector(this.momentum)`. -/
def adjustPosition (b : Body) : Body :=
  let trail1 :=
    if b.trailLength ≠ 0 ∧ b.trail.length ≤ b.trailLength
    then b.trail ++ [b.position.exportCoordinates]
    else b.trail
  let trail2 :=
    if b.trailLength < trail1.length
    then trail1.drop (trail1.length - b.trailLength)
    else trail1
  { b with trail := trail2, position := b.position.addVector b.momentum }

end Body

noncomputable section

namespace Body

/-- `Body.prototype.gravCoeff`:
`(this.mass * body.mass) / (radius * radius) * 0.5` where `radius` is the
distance between the two positions. -/
def gravCoeff (b : Body) (body : Body) : ℝ :=
  let radius := b.position.distance body.position
  b.mass * body.mass / (radius * radius) * 0.5

/-- `Body.prototype.adjustVector`: accumulate into `this.momentum` the
gravitational pull of `body`, from pre-step positions. -/
def adjustVector (b : Body) (body : Body) : Body :=
  let c := b.gravCoeff body
  let posDiff := b.position.difference body.position
  { b with momentum := b.momentum.addCoords (c * posDiff.x) (c * posDiff.y) }

end Body

end

/-- The `BodyCollection` class: an ordered, capacity-bounded sequence of bodies. -/
structure BodyCollection where
  bodies : List Body

namespace BodyCollection

/-- `BodyCollection.MAX_BODIES`. -/
def MAX_BODIES : ℕ := 10

/-- `BodyCollection.prototype.centerOfMass`: one loop accumulating
`xComp += b.x * b.mass`, `yComp += b.y * b.mass`, `mass += b.mass`, then
`new Position(xComp / mass, yComp / mass)`.  No emptiness check is
performed: on an empty collection both divisions are `0 / 0`. -/
noncomputable def centerOfMass (c : BodyCollection) : Position :=
  let acc := c.bodies.foldl
    (fun (a : ℝ × ℝ × ℝ) b => (a.1 + b.x * b.mass, a.2.1 + b.y * b.mass, a.2.2 + b.mass))
    (0, 0, 0)
  ⟨acc.1 / acc.2.2, acc.2.1 / acc.2.2⟩

/-- `BodyCollection.prototype.addBodyCustom`: throws
`"Body count limit reached."` when `this.bodies.length >= MAX_BODIES`,
otherwise constructs a fresh `Body` and pushes it. -/
def addBodyCustom (c : BodyCollection) (rnd : ℕ) (mass posx posy momx momy : ℝ) :
    BodyCollection × Except String Body :=
  if MAX_BODIES ≤ c.bodies.length then (c, .error "Body count limit reached.")
  else
    let p : Position := ⟨posx, posy⟩
    let m : MotionVector := ⟨momx, momy⟩
    let b : Body := Body.new rnd mass p m
    (⟨c.bodies ++ [b]⟩, .ok b)

/-- `BodyCollection.prototype.addBody`: `addBodyCustom(1, posx, posy, 0, 0)`. -/
def addBody (c : BodyCollection) (rnd : ℕ) (posx posy : ℝ) :
    BodyCollection × Except String Body :=
  c.addBodyCustom rnd 1 posx posy 0 0

/-- `BodyCollection.prototype.removeBody`:
`return this.bodies.splice(index, 1)[0]` with JavaScript `splice`
semantics — a negative start counts from the end clamped at 0, a start
beyond the length is clamped to the length, at most one element is
removed, and `[0]` of the removed array is `undefined` (`none`) when
nothing was removed.  No bounds check of any kind is performed. -/
def removeBody (c : BodyCollection) (index : ℤ) : BodyCollection × Option Body :=
  let len := c.bodies.length
  let actualStart : ℕ :=
    if index < 0 then ((len : ℤ) + index).toNat
    else min index.toNat len
  let deleteCount := min 1 (len - actualStart)
  let removed := (c.bodies.drop actualStart).take deleteCount
  (⟨c.bodies.take actualStart ++ c.bodies.drop (actualStart + deleteCount)⟩, removed.head?)

end BodyCollection

noncomputable section

namespace BodyCollection

/-- One iteration of the doubly nested loop in `updateVectors`:
`if (i == j) continue; this.bodies[i].adjustVector(this.bodies[j])`,
reading the current (possibly already momentum-updated) array. -/
def adjustVectorStep (bs : List Body) (i j : ℕ) : List Body :=
  if i = j then bs
  else bs.set i ((bs.getD i default).adjustVector (bs.getD j default))

/-- `BodyCollection.prototype.updateVectors`: the accumulation phase,
`for i in [0, n) { for j in [0, n) { ... } }` over the evolving array
(whose length never changes during the loop). -/
def updateVectors (bs : List Body) : List Body :=
  (List.range bs.length).foldl
    (fun acc i => (List.range bs.length).foldl (fun acc2 j => adjustVectorStep acc2 i j) acc)
    bs

/-- `BodyCollection.prototype.updatePositions`: the displacement phase,
`this.bodies[i].adjustPosition()` for each `i` (each call touches only
body `i`). -/
def updatePositions (bs : List Body) : List Body :=
  bs.map Body.adjustPosition

/-- `BodyCollection.prototype.updateSimulation`: full step —
`await this.updateVectors(); await this.updatePositions();`. -/
def updateSimulation (c : BodyCollection) : BodyCollection :=
  ⟨updatePositions (updateVectors c.bodies)⟩

end BodyCollection

/-- The step driver (`Animator.calculate` / `loopUpdate(n)`): run
`updateSimulation` `n` times sequentially. -/
def runSteps (c : BodyCollection) : ℕ → BodyCollection
  | 0 => c
  | n + 1 => runSteps c.updateSimulation n

end

/-- The physics-relevant projection of a `Body`: everything except the
cosmetic attributes `colorIndex` and `trailThickness`. -/
structure PhysState where
  mass : ℝ
  position : Position
  momentum : MotionVector
  trailLength : ℕ
  trail : List (ℝ × ℝ)

/-- Project a body onto its physics-relevant fields. -/
def Body.phys (b : Body) : PhysState :=
  ⟨b.mass, b.position, b.momentum, b.trailLength, b.trail⟩

/-- `advance()` as amended for claim C3: the pre-advance position is
appended whenever the trail capacity is positive and the current trail
length is *at most* (not strictly below) the capacity; then only the
newest `trailLength` entries are kept (trimming from the head); finally
the momentum is added to the position. -/
def advanceAmended (b : Body) : Body :=
  let recorded :=
    if 0 < b.trailLength ∧ b.trail.length ≤ b.trailLength
    then b.trail ++ [b.position.exportCoordinates]
    else b.trail
  { b with trail := (recorded.reverse.take b.trailLength).reverse,
           position := b.position.addVector b.momentum }

/-- The advance rule exactly as claim C3 words it: append the pre-advance
position only when the current trail length is *strictly below* the
capacity; then, when the trail exceeds the capacity, trim from the head
down to exactly the capacity; finally add the momentum to the position. -/
def advanceClaimed (b : Body) : Body :=
  let recorded :=
    if 0 < b.trailLength ∧ b.trail.length < b.trailLength
    then b.trail ++ [b.position.exportCoordinates]
    else b.trail
  let trimmed :=
    if b.trailLength < recorded.length
    then recorded.drop (recorded.length - b.trailLength)
    else recorded
  { b with trail := trimmed, position := b.position.addVector b.momentum }

/-- Test body A of the specification: mass 1, position (0,0), zero
momentum, trail capacity 0. -/
def bodyA : Body :=
  { mass := 1, position := ⟨0, 0⟩, momentum := ⟨0, 0⟩,
    trailLength := 0, trail := [], colorIndex := 0, trailThickness := 2 }

/-- Test body B of the specification: mass 1, position (10,0), zero
momentum, trail capacity 0. -/
def bodyB : Body :=
  { mass := 1, position := ⟨10, 0⟩, momentum := ⟨0, 0⟩,
    trailLength := 0, trail := [], colorIndex := 1, trailThickness := 2 }

/-- A collection holding exactly ten bodies (for the capacity boundary). -/
def tenBodies : BodyCollection := ⟨List.replicate 10 bodyA⟩

/-- A body with a positive trail capacity and an empty trail. -/
def soloBody : Body := { bodyA with trailLength := 5 }

/-- A one-body collection used to instantiate collection-level invariants. -/
def soloC : BodyCollection := ⟨[soloBody]⟩

/-- A body whose trail is exactly at capacity (capacity 1, one recorded
entry), at position (1,2) with momentum (3,4). -/
def fullBody : Body :=
  { mass := 1, position := ⟨1, 2⟩, momentum := ⟨3, 4⟩,
    trailLength := 1, trail := [(0, 0)], colorIndex := 0, trailThickness := 2 }

/-- A body whose recorded trail (two entries) is longer than the capacity
about to be configured. -/
def longTrailBody : Body :=
  { bodyA with trailLength := 5, trail := [(0, 0), (1, 1)] }

/-- `bodyA` with different cosmetic attributes only. -/
def tintedBody : Body := { bodyA with colorIndex := 3, trailThickness := 1 }

/-! ## Claim theorems -/

/-- C5: on a collection holding zero bodies, `centerOfMass()` does not
fail with `EmptyCollection` — the source performs no emptiness check and
silently returns `new Position(0 / 0, 0 / 0)` (`NaN` coordinates in
JavaScript), contradicting the claimed error behaviour. -/
theorem C5_empty_centerOfMass_silent_division :
    BodyCollection.centerOfMass ⟨[]⟩ = ⟨0 / 0, 0 / 0⟩ := rfl

/-- C7: `removeBody` performs no bounds check at all.  On a two-body
collection, index 5 removes nothing and returns `undefined` (`none`)
instead of failing with `IndexOutOfRange`, and index -1 removes the
*last* body (JavaScript `splice` counts negative indices from the end). -/
theorem C7_removeBody_no_bounds_check :
    BodyCollection.removeBody ⟨[bodyA, bodyB]⟩ 5 = (⟨[bodyA, bodyB]⟩, none) ∧
    BodyCollection.removeBody ⟨[bodyA, bodyB]⟩ (-1) = (⟨[bodyA]⟩, some bodyB) :=
  ⟨rfl, rfl⟩

/-- C2: a collection already holding 10 bodies rejects any further
`addBody`/`addBodyCustom` call with the capacity error, returning the
collection unchanged (same bodies, same order); a collection holding
fewer than 10 bodies appends exactly one freshly constructed body at the
tail and returns it; and `addBody` delegates to `addBodyCustom` with
mass 1 and zero momentum. -/
theorem C2_capacity_invariant (c : BodyCollection) (rnd : ℕ)
    (mass posx posy momx momy : ℝ) :
    (c.bodies.length = 10 →
      c.addBodyCustom rnd mass posx posy momx momy =
        (c, .error "Body count limit reached.")) ∧
    (c.bodies.length < 10 →
      c.addBodyCustom rnd mass posx posy momx momy =
        (⟨c.bodies ++ [Body.new rnd mass ⟨posx, posy⟩ ⟨momx, momy⟩]⟩,
         .ok (Body.new rnd mass ⟨posx, posy⟩ ⟨momx, momy⟩))) ∧
    c.addBody rnd posx posy = c.addBodyCustom rnd 1 posx posy 0 0 := by
  refine ⟨fun h => ?_, fun h => ?_, rfl⟩
  · rw [BodyCollection.addBodyCustom, if_pos]
    rw [h, BodyCollection.MAX_BODIES]
  · rw [BodyCollection.addBodyCustom, if_neg]
    rw [BodyCollection.MAX_BODIES]
    omega

/-- Witness for C2 at concrete inputs: the 11th add on a ten-body
collection fails and mutates nothing, and an add on an empty collection
appends the new body. -/
theorem C2_capacity_invariant_witness :
    (tenBodies.addBodyCustom 0 1 2 3 4 5 =
      (tenBodies, .error "Body count limit reached.")) ∧
    ((⟨[]⟩ : BodyCollection).addBodyCustom 0 1 2 3 4 5 =
      (⟨[Body.new 0 1 ⟨2, 3⟩ ⟨4, 5⟩]⟩, .ok (Body.new 0 1 ⟨2, 3⟩ ⟨4, 5⟩))) :=
  ⟨(C2_capacity_invariant tenBodies 0 1 2 3 4 5).1 (by decide),
   by simpa using (C2_capacity_invariant ⟨[]⟩ 0 1 2 3 4 5).2.1 (by decide)⟩

/-- C8: `setTrailLength(n)` (the spec's `setTrailCapacity`) throws exactly
when `n < 0` or `n > 100000`, leaving the body unchanged, and otherwise
succeeds and sets the capacity to `n`. -/
theorem C8_setTrailLength_validation (b : Body) (n : ℤ) :
    ((n < 0 ∨ 100000 < n) →
      b.setTrailLength n = (b, .error "Invalid trail length")) ∧
    (0 ≤ n → n ≤ 100000 →
      b.setTrailLength n = ({ b with trailLength := n.toNat }, .ok ())) := by
  constructor
  · intro h
    rw [Body.setTrailLength, if_pos h]
  · intro h0 h1
    rw [Body.setTrailLength, if_neg]
    omega

/-- Witness for C8 at the four boundary inputs: -1 and 100001 fail with
the body unchanged; 0 and 100000 succeed and set the capacity. -/
theorem C8_setTrailLength_validation_witness :
    (bodyA.setTrailLength (-1) = (bodyA, .error "Invalid trail length")) ∧
    (bodyA.setTrailLength 100001 = (bodyA, .error "Invalid trail length")) ∧
    (bodyA.setTrailLength 0 = ({ bodyA with trailLength := 0 }, .ok ())) ∧
    (bodyA.setTrailLength 100000 = ({ bodyA with trailLength := 100000 }, .ok ())) :=
  ⟨(C8_setTrailLength_validation bodyA (-1)).1 (Or.inl (by decide)),
   (C8_setTrailLength_validation bodyA 100001).1 (Or.inr (by decide)),
   (C8_setTrailLength_validation bodyA 0).2 le_rfl (by decide),
   (C8_setTrailLength_validation bodyA 100000).2 (by decide) le_rfl⟩

/-- After `adjustPosition`, the trail never exceeds the capacity. -/
theorem adjustPosition_trail_le (b : Body) :
    b.adjustPosition.trail.length ≤ b.trailLength := by
  simp only [Body.adjustPosition]
  split_ifs with h1 h2 h2
  · rw [List.length_drop]
    omega
  · omega
  · rw [List.length_drop]
    omega
  · omega

/-- `adjustPosition` preserves the configured capacity. -/
theorem adjustPosition_trailLength (b : Body) :
    b.adjustPosition.trailLength = b.trailLength := rfl

/-- When the trail is strictly longer than the capacity, `adjustPosition`
records nothing and trims the trail to exactly the capacity. -/
theorem adjustPosition_trail_trim (b : Body) (h : b.trailLength < b.trail.length) :
    b.adjustPosition.trail.length = b.trailLength := by
  simp only [Body.adjustPosition]
  split_ifs with h1 h2 <;>
    first
      | exact absurd h1.2 (not_le.mpr h)
      | (rw [List.length_drop]; omega)

/-- C10: a successful `setTrailLength` call mutates only the capacity
field — in particular the recorded trail entries are untouched — so after
lowering the capacity below the current trail length the trail still
exceeds the new capacity, until the next `adjustPosition` trims it down
to exactly the new capacity. -/
theorem C10_setTrailLength_frame (b : Body) (n : ℤ) (h0 : 0 ≤ n) (h1 : n ≤ 100000) :
    (b.setTrailLength n).1 = { b with trailLength := n.toNat } ∧
    (b.setTrailLength n).1.trail = b.trail ∧
    (n.toNat < b.trail.length →
      (b.setTrailLength n).1.trailLength < (b.setTrailLength n).1.trail.length ∧
      (b.setTrailLength n).1.adjustPosition.trail.length = n.toNat) := by
  have hs : b.setTrailLength n = ({ b with trailLength := n.toNat }, .ok ()) := by
    rw [Body.setTrailLength, if_neg]
    omega
  refine ⟨by rw [hs], by rw [hs], fun hlt => ⟨by rw [hs]; exact hlt, ?_⟩⟩
  rw [hs]
  exact adjustPosition_trail_trim { b with trailLength := n.toNat } hlt

/-- Witness for C10: lowering the capacity of a two-entry trail to 1
leaves the two entries in place, and the next advance trims to one. -/
theorem C10_setTrailLength_frame_witness :
    (longTrailBody.setTrailLength 1).1 = { longTrailBody with trailLength := 1 } ∧
    (longTrailBody.setTrailLength 1).1.trail = longTrailBody.trail ∧
    ((1 : ℤ).toNat < longTrailBody.trail.length →
      (longTrailBody.setTrailLength 1).1.trailLength <
        (longTrailBody.setTrailLength 1).1.trail.length ∧
      (longTrailBody.setTrailLength 1).1.adjustPosition.trail.length = (1 : ℤ).toNat) :=
  C10_setTrailLength_frame longTrailBody 1 (by decide) (by decide)

/-- Keeping the newest `n` entries (reverse, take, reverse) is the same as
dropping `length - n` entries from the head. -/
theorem reverse_take_reverse_eq {α : Type} (l : List α) (n : ℕ) :
    (l.reverse.take n).reverse = if n < l.length then l.drop (l.length - n) else l := by
  rw [← List.rtake_eq_reverse_take_reverse]
  unfold List.rtake
  split_ifs with h
  · rfl
  · rw [Nat.sub_eq_zero_of_le (le_of_not_lt h), List.drop_zero]

/-- C3 (amended): `adjustPosition` appends the pre-advance position iff the
capacity is positive and the trail length is *at most* the capacity, keeps
only the newest `trailLength` entries, and then adds the momentum to the
position. -/
theorem C3_advance_order_amended (b : Body) : b.adjustPosition = advanceAmended b := by
  simp only [Body.adjustPosition, advanceAmended, reverse_take_reverse_eq,
    Nat.pos_iff_ne_zero]

/-- C3 (counterexample): the claimed strictly-below append condition fails
on the code.  For a body whose trail is exactly at capacity (capacity 1,
one entry, position (1,2)), the code appends the pre-advance position and
trims the oldest entry — the resulting trail is `[(1,2)]` — while the
claimed rule would have left the trail at `[(0,0)]`. -/
theorem C3_strict_append_counterexample :
    fullBody.adjustPosition.trail = [((1 : ℝ), (2 : ℝ))] ∧
    (advanceClaimed fullBody).trail = [((0 : ℝ), (0 : ℝ))] ∧
    fullBody.adjustPosition ≠ advanceClaimed fullBody := by
  have h1 : fullBody.adjustPosition.trail = [((1 : ℝ), (2 : ℝ))] := by
    simp [Body.adjustPosition, fullBody, Position.exportCoordinates]
  have h2 : (advanceClaimed fullBody).trail = [((0 : ℝ), (0 : ℝ))] := by
    simp [advanceClaimed, fullBody]
  refine ⟨h1, h2, fun h => ?_⟩
  have ht := congrArg Body.trail h
  rw [h1, h2] at ht
  simp only [List.cons.injEq, Prod.mk.injEq] at ht
  exact one_ne_zero ht.1.1

/-- Every body of a collection satisfies the trail bound right after a
full simulation step. -/
theorem updateSimulation_trail_le (c : BodyCollection) :
    ∀ b ∈ c.updateSimulation.bodies, b.trail.length ≤ b.trailLength := by
  intro b hb
  simp only [BodyCollection.updateSimulation, BodyCollection.updatePositions,
    List.mem_map] at hb
  obtain ⟨a, -, rfl⟩ := hb
  exact adjustPosition_trail_le a

/-- C4: starting from a collection in which every body's trail is within
its capacity, after any number of simulation steps every body's trail is
still within its capacity (reading body `i`, or the default body when `i`
is out of range). -/
theorem C4_trail_bound (c : BodyCollection) (i n : ℕ)
    (h : ∀ b ∈ c.bodies, b.trail.length ≤ b.trailLength) :
    ((runSteps c n).bodies.getD i default).trail.length ≤
      ((runSteps c n).bodies.getD i default).trailLength := by
  induction n generalizing c with
  | zero =>
    show (c.bodies.getD i default).trail.length ≤ (c.bodies.getD i default).trailLength
    rcases lt_or_le i c.bodies.length with hi | hi
    · rw [List.getD_eq_getElem?_getD, List.getElem?_eq_getElem hi, Option.getD_some]
      exact h _ (List.getElem_mem _)
    · rw [List.getD_eq_getElem?_getD, List.getElem?_eq_none hi, Option.getD_none]
      exact Nat.le_refl 0
  | succ n ih => exact ih c.updateSimulation (updateSimulation_trail_le c)

/-- Witness for C4: one body with capacity 5 and empty trail, three steps. -/
theorem C4_trail_bound_witness :
    ((runSteps soloC 3).bodies.getD 0 default).trail.length ≤
      ((runSteps soloC 3).bodies.getD 0 default).trailLength :=
  C4_trail_bound soloC 0 3 (by
    intro b hb
    simp only [soloC] at hb
    rw [List.mem_singleton] at hb
    subst hb
    decide)

/-- The single accumulation loop of `centerOfMass` computes the three sums. -/
theorem centerOfMass_foldl (l : List Body) (a b m : ℝ) :
    l.foldl
      (fun (acc : ℝ × ℝ × ℝ) bd =>
        (acc.1 + bd.x * bd.mass, acc.2.1 + bd.y * bd.mass, acc.2.2 + bd.mass))
      (a, b, m) =
      (a + (l.map fun bd => bd.x * bd.mass).sum,
       b + (l.map fun bd => bd.y * bd.mass).sum,
       m + (l.map Body.mass).sum) := by
  induction l generalizing a b m with
  | nil => simp
  | cons hd tl ih =>
    simp only [List.foldl_cons, List.map_cons, List.sum_cons, ih]
    refine Prod.ext ?_ (Prod.ext ?_ ?_) <;> simp <;> ring

/-- C6: on a non-empty collection, `centerOfMass()` is the mass-weighted
average of the positions, `Σ(position_i * mass_i) / Σ(mass_i)`; in
particular two unit masses at (0,0) and (10,0) give (5, 0). -/
theorem C6_centerOfMass_weighted_average :
    (∀ (c : BodyCollection), c.bodies ≠ [] →
      c.centerOfMass =
        ⟨(c.bodies.map fun b => b.position.x * b.mass).sum / (c.bodies.map Body.mass).sum,
         (c.bodies.map fun b => b.position.y * b.mass).sum / (c.bodies.map Body.mass).sum⟩) ∧
    BodyCollection.centerOfMass ⟨[bodyA, bodyB]⟩ = ⟨5, 0⟩ := by
  have hcom : ∀ (c : BodyCollection),
      c.centerOfMass =
        ⟨(c.bodies.map fun b => b.position.x * b.mass).sum / (c.bodies.map Body.mass).sum,
         (c.bodies.map fun b => b.position.y * b.mass).sum / (c.bodies.map Body.mass).sum⟩ := by
    intro c
    simp only [BodyCollection.centerOfMass]
    rw [centerOfMass_foldl]
    simp only [zero_add, Body.x, Body.y]
  refine ⟨fun c _ => hcom c, ?_⟩
  rw [hcom]
  simp only [bodyA, bodyB, List.map_cons, List.map_nil, List.sum_cons, List.sum_nil]
  norm_num

/-- Witness for C6: the general weighted-average equation applied to a
concrete non-empty collection. -/
theorem C6_centerOfMass_weighted_average_witness :
    BodyCollection.centerOfMass ⟨[bodyA]⟩ =
      ⟨([bodyA].map fun b => b.position.x * b.mass).sum / ([bodyA].map Body.mass).sum,
       ([bodyA].map fun b => b.position.y * b.mass).sum / ([bodyA].map Body.mass).sum⟩ :=
  C6_centerOfMass_weighted_average.1 ⟨[bodyA]⟩ (List.cons_ne_nil _ _)

/-- Projecting a body onto its physics fields determines each of them. -/
theorem phys_fields {b b' : Body} (h : b.phys = b'.phys) :
    b.mass = b'.mass ∧ b.position = b'.position ∧ b.momentum = b'.momentum ∧
      b.trailLength = b'.trailLength ∧ b.trail = b'.trail := by
  simpa [Body.phys, PhysState.mk.injEq] using h

/-- `adjustVector` reads and writes only physics fields: it is a
congruence for the physics projection. -/
theorem phys_adjustVector {b b' o o' : Body} (hb : b.phys = b'.phys)
    (ho : o.phys = o'.phys) :
    (b.adjustVector o).phys = (b'.adjustVector o').phys := by
  obtain ⟨hm, hp, hv, ht, hl⟩ := phys_fields hb
  obtain ⟨hm2, hp2, -, -, -⟩ := phys_fields ho
  simp [Body.adjustVector, Body.gravCoeff, Body.phys, hm, hp, hv, ht, hl, hm2, hp2]

/-- `adjustPosition` reads and writes only physics fields. -/
theorem phys_adjustPosition {b b' : Body} (h : b.phys = b'.phys) :
    b.adjustPosition.phys = b'.adjustPosition.phys := by
  obtain ⟨hm, hp, hv, ht, hl⟩ := phys_fields h
  simp [Body.adjustPosition, Body.phys, hm, hp, hv, ht, hl]

/-- Reading body `i` respects pointwise physics equality. -/
theorem phys_getD (bs bs' : List Body)
    (h : bs.map Body.phys = bs'.map Body.phys) (i : ℕ) :
    (bs.getD i default).phys = (bs'.getD i default).phys := by
  induction bs generalizing bs' i with
  | nil =>
    cases bs' with
    | nil => rfl
    | cons c cs => simp at h
  | cons a as ih =>
    cases bs' with
    | nil => simp at h
    | cons c cs =>
      simp only [List.map_cons, List.cons.injEq] at h
      cases i with
      | zero => simpa using h.1
      | succ n => simpa using ih cs h.2 n

/-- Writing physics-equal bodies at index `i` respects pointwise physics
equality. -/
theorem phys_set (bs bs' : List Body) (h : bs.map Body.phys = bs'.map Body.phys)
    {a a' : Body} (ha : a.phys = a'.phys) (i : ℕ) :
    (bs.set i a).map Body.phys = (bs'.set i a').map Body.phys := by
  rw [List.map_set, List.map_set, h, ha]

/-- One iteration of the pair loop respects pointwise physics equality. -/
theorem phys_adjustVectorStep (bs bs' : List Body)
    (h : bs.map Body.phys = bs'.map Body.phys) (i j : ℕ) :
    (BodyCollection.adjustVectorStep bs i j).map Body.phys =
      (BodyCollection.adjustVectorStep bs' i j).map Body.phys := by
  unfold BodyCollection.adjustVectorStep
  split_ifs with hij
  · exact h
  · exact phys_set bs bs' h
      (phys_adjustVector (phys_getD bs bs' h i) (phys_getD bs bs' h j)) i

/-- The inner `j` loop of `updateVectors` respects pointwise physics
equality. -/
theorem phys_innerFold (L : List ℕ) (i : ℕ) :
    ∀ (bs bs' : List Body), bs.map Body.phys = bs'.map Body.phys →
      (L.foldl (fun a j => BodyCollection.adjustVectorStep a i j) bs).map Body.phys =
        (L.foldl (fun a j => BodyCollection.adjustVectorStep a i j) bs').map Body.phys := by
  induction L with
  | nil => exact fun bs bs' h => h
  | cons j L ih => exact fun bs bs' h => ih _ _ (phys_adjustVectorStep bs bs' h i j)

/-- The outer `i` loop of `updateVectors` respects pointwise physics
equality. -/
theorem phys_outerFold (L M : List ℕ) :
    ∀ (bs bs' : List Body), bs.map Body.phys = bs'.map Body.phys →
      (L.foldl (fun acc i =>
          M.foldl (fun a j => BodyCollection.adjustVectorStep a i j) acc) bs).map Body.phys =
        (L.foldl (fun acc i =>
          M.foldl (fun a j => BodyCollection.adjustVectorStep a i j) acc) bs').map Body.phys := by
  induction L with
  | nil => exact fun bs bs' h => h
  | cons i L ih => exact fun bs bs' h => ih _ _ (phys_innerFold M i bs bs' h)

/-- The whole accumulation phase respects pointwise physics equality. -/
theorem phys_updateVectors (bs bs' : List Body)
    (h : bs.map Body.phys = bs'.map Body.phys) :
    (BodyCollection.updateVectors bs).map Body.phys =
      (BodyCollection.updateVectors bs').map Body.phys := by
  have hlen : bs.length = bs'.length := by
    simpa using congrArg List.length h
  unfold BodyCollection.updateVectors
  rw [hlen]
  exact phys_outerFold _ _ bs bs' h

/-- The displacement phase respects pointwise physics equality. -/
theorem phys_updatePositions (bs bs' : List Body)
    (h : bs.map Body.phys = bs'.map Body.phys) :
    (BodyCollection.updatePositions bs).map Body.phys =
      (BodyCollection.updatePositions bs').map Body.phys := by
  unfold BodyCollection.updatePositions
  induction bs generalizing bs' with
  | nil =>
    cases bs' with
    | nil => rfl
    | cons c cs => simp at h
  | cons a as ih =>
    cases bs' with
    | nil => simp at h
    | cons c cs =>
      simp only [List.map_cons, List.cons.injEq] at h ⊢
      exact ⟨phys_adjustPosition h.1, ih cs h.2⟩

/-- A full simulation step respects pointwise physics equality. -/
theorem phys_updateSimulation (c c' : BodyCollection)
    (h : c.bodies.map Body.phys = c'.bodies.map Body.phys) :
    c.updateSimulation.bodies.map Body.phys =
      c'.updateSimulation.bodies.map Body.phys :=
  phys_updatePositions _ _ (phys_updateVectors _ _ h)

/-- C9: the cosmetic attributes (`colorIndex`, `trailThickness`) do not
influence physics.  Two collections whose bodies agree on masses,
positions, momenta, trail capacities and trails — but differ arbitrarily
in the cosmetic attributes — still agree on all of those physics fields
after any number of simulation steps. -/
theorem C9_cosmetic_noninterference (c c' : BodyCollection) (n : ℕ)
    (h : c.bodies.map Body.phys = c'.bodies.map Body.phys) :
    (runSteps c n).bodies.map Body.phys = (runSteps c' n).bodies.map Body.phys := by
  induction n generalizing c c' with
  | zero => exact h
  | succ n ih => exact ih _ _ (phys_updateSimulation c c' h)

/-- Witness for C9: a body and its differently-tinted copy evolve to the
same physics state after two steps. -/
theorem C9_cosmetic_noninterference_witness :
    (runSteps ⟨[bodyA]⟩ 2).bodies.map Body.phys =
      (runSteps ⟨[tintedBody]⟩ 2).bodies.map Body.phys :=
  C9_cosmetic_noninterference ⟨[bodyA]⟩ ⟨[tintedBody]⟩ 2 rfl

/-- C1: for bodies A (mass 1, (0,0)) and B (mass 1, (10,0)), both with
zero momentum and trail capacity 0, one full step accumulates both
momenta from the pre-step positions before any displacement: the pair
coefficient is exactly `1*1/100*0.5 = 0.005` in both directions, and the
post-step momenta are (0.05, 0) for A and (-0.05, 0) for B. -/
theorem C1_phase_barrier_two_bodies :
    Body.gravCoeff bodyA bodyB = 0.005 ∧
    Body.gravCoeff bodyB bodyA = 0.005 ∧
    (BodyCollection.updateSimulation ⟨[bodyA, bodyB]⟩).bodies.map Body.momentum =
      [⟨0.05, 0⟩, ⟨-0.05, 0⟩] := by
  have hAB : Position.distance ⟨0, 0⟩ ⟨10, 0⟩ = 10 := by
    simp only [Position.distance, Position.difference]
    rw [show ((10 : ℝ) - 0) * (10 - 0) + (0 - 0) * (0 - 0) = 10 ^ 2 by norm_num]
    exact Real.sqrt_sq (by norm_num)
  have hBA : Position.distance ⟨10, 0⟩ ⟨0, 0⟩ = 10 := by
    simp only [Position.distance, Position.difference]
    rw [show ((0 : ℝ) - 10) * (0 - 10) + (0 - 0) * (0 - 0) = 10 ^ 2 by norm_num]
    exact Real.sqrt_sq (by norm_num)
  have hv : BodyCollection.updateVectors [bodyA, bodyB] =
      [Body.adjustVector bodyA bodyB,
       Body.adjustVector bodyB (Body.adjustVector bodyA bodyB)] := rfl
  have hA : Body.adjustVector bodyA bodyB = { bodyA with momentum := ⟨0.05, 0⟩ } := by
    simp only [Body.adjustVector, Body.gravCoeff, Position.difference,
      MotionVector.addCoords, bodyA, bodyB, hAB]
    norm_num [Body.mk.injEq, MotionVector.mk.injEq]
  have hB : Body.adjustVector bodyB { bodyA with momentum := ⟨0.05, 0⟩ } =
      { bodyB with momentum := ⟨-0.05, 0⟩ } := by
    simp only [Body.adjustVector, Body.gravCoeff, Position.difference,
      MotionVector.addCoords, bodyA, bodyB, hBA]
    norm_num [Body.mk.injEq, MotionVector.mk.injEq]
  refine ⟨?_, ?_, ?_⟩
  · simp only [Body.gravCoeff, bodyA, bodyB, hAB]
    norm_num
  · simp only [Body.gravCoeff, bodyB, bodyA, hBA]
    norm_num
  · show List.map Body.momentum
        (BodyCollection.updatePositions (BodyCollection.updateVectors [bodyA, bodyB])) =
      [⟨0.05, 0⟩, ⟨-0.05, 0⟩]
    rw [hv, hA, hB]
    rfl
